import Mathlib

/-!
Verification of the palette-derivation utility of bearViz (`extract_colors` in
`bearViz.py`, plus the default `color_palette` fallback).

Embedding choices:
* The external quantizer (`ColorThief.get_palette`) is a collaborator; its
  output is a parameter `extracted_colors : List (Nat × Nat × Nat)` of RGB
  triples, exactly the value the Python code destructures on line 35.
* `random.randint(20, 50)` is modelled by an offset stream `off : Nat → Nat`;
  the n-th call of `randint` in a run returns `off n`.  Claims about the
  range of the offsets take the hypothesis `20 ≤ off n ∧ off n ≤ 50`.
* A Python exception escaping the function (ZeroDivisionError from
  `len(x) % len(x)` on an empty list, IndexError) is modelled by `none`;
  a normal return is `some result`.
* The `while` loop is modelled by structural recursion with explicit fuel.
  `extract_colors` passes `required_colors` as fuel, which always suffices:
  each iteration appends exactly one element and the loop stops as soon as
  the list reaches `required_colors` elements.
-/

namespace BearViz

/-- Lowercase hex digit for `n < 16`, as produced by Python's `"%x"` format. -/
def digitChar16 (n : Nat) : Char :=
  if n < 10 then Char.ofNat (48 + n) else Char.ofNat (97 + (n - 10))

/-- All lowercase hex digits of `n`, most significant first (Python `"%x"`).
`fuel` bounds the recursion depth; `n + 1` always suffices. -/
def hexDigits : Nat → Nat → List Char
  | 0, _ => []
  | fuel + 1, n =>
    if n < 16 then [digitChar16 n]
    else hexDigits fuel (n / 16) ++ [digitChar16 (n % 16)]

/-- Python's `"{:02x}".format n`: lowercase hex, zero-padded to width 2. -/
def hex2 (n : Nat) : List Char :=
  let ds := hexDigits (n + 1) n
  if ds.length < 2 then '0' :: ds else ds

/-- Python's `"#{:02x}{:02x}{:02x}".format(r, g, b)` (bearViz.py line 35/40). -/
def rgbToHex (r g b : Nat) : String :=
  String.mk ('#' :: (hex2 r ++ hex2 g ++ hex2 b))

/-- Value of a hex digit character, as parsed by Python's `int(s, 16)`.
Non-hex characters map to 0; every string this program slices is a
well-formed hex color, so that branch is never reached. -/
def hexDigitVal (c : Char) : Nat :=
  if '0' ≤ c ∧ c ≤ '9' then c.toNat - 48
  else if 'a' ≤ c ∧ c ≤ 'f' then c.toNat - 97 + 10
  else if 'A' ≤ c ∧ c ≤ 'F' then c.toNat - 65 + 10
  else 0

/-- Python's `int(s, 16)` on a string of hex digits. -/
def parseHex (cs : List Char) : Nat :=
  cs.foldl (fun a c => 16 * a + hexDigitVal c) 0

/-- Python slice `s[i:j]` (for `0 ≤ i ≤ j`), as a character list. -/
def strSlice (s : String) (i j : Nat) : List Char :=
  (s.toList.drop i).take (j - i)

/-- Python `a % b` on naturals: raises ZeroDivisionError (`none`) for `b = 0`. -/
def pyMod (a b : Nat) : Option Nat :=
  if b = 0 then none else some (a % b)

/-- One synthesized color (bearViz.py lines 40-44): each channel of `base`
(parsed from its hex slices) is shifted by an offset and wrapped mod 256. -/
def synthColor (base : String) (d1 d2 d3 : Nat) : String :=
  rgbToHex ((parseHex (strSlice base 1 3) + d1) % 256)
           ((parseHex (strSlice base 3 5) + d2) % 256)
           ((parseHex (strSlice base 5 7) + d3) % 256)

/-- The `while len(extracted_hex) < required_colors` loop of bearViz.py
lines 38-45.  `t` counts the `randint` calls consumed so far; the base
index is `len(extracted_hex) % len(extracted_hex)`, exactly as on line 39.
`none` models an uncaught Python exception (ZeroDivisionError when the list
is empty, IndexError on a bad index). -/
def synthLoop (off : Nat → Nat) (required : Nat) : Nat → Nat → List String → Option (List String)
  | 0, _, hex => if hex.length < required then none else some hex
  | fuel + 1, t, hex =>
    if hex.length < required then
      match pyMod hex.length hex.length with
      | none => none
      | some i =>
        match hex.get? i with
        | none => none
        | some base =>
          synthLoop off required fuel (t + 3)
            (hex ++ [synthColor base (off t) (off (t + 1)) (off (t + 2))])
    else some hex

/-- The list comprehension of bearViz.py line 35: hex strings of the
quantizer's RGB triples, order preserved. -/
def hexOf (extracted_colors : List (Nat × Nat × Nat)) : List String :=
  extracted_colors.map (fun color => rgbToHex color.1 color.2.1 color.2.2)

/-- `extract_colors` of bearViz.py lines 32-47, with the quantizer output and
the random stream as parameters.  Converts the extracted RGB triples to hex,
pads with synthesized colors while shorter than `required_colors`, and
truncates to `required_colors` (`extracted_hex[:required_colors]`). -/
def extract_colors (off : Nat → Nat) (extracted_colors : List (Nat × Nat × Nat))
    (required_colors : Nat) : Option (List String) :=
  let extracted_hex := hexOf extracted_colors
  match synthLoop off required_colors required_colors 0 extracted_hex with
  | none => none
  | some hex => some (hex.take required_colors)

/-- The hardcoded default palette of bearViz.py line 50, used when
`st.session_state` holds no image-derived palette. -/
def default_color_palette : List String :=
  ["#3498db", "#e74c3c", "#2ecc71", "#f1c40f", "#9b59b6"]

/-- bearViz.py line 50: `st.session_state.get("color_palette", default)`.
The session entry is `some p` when an image-derived palette was stored,
`none` otherwise. -/
def color_palette (sessionPalette : Option (List String)) : List String :=
  sessionPalette.getD default_color_palette

/-- Decides the pattern `^#[0-9a-f]{6}$`: a 7-character string, `#` then six
lowercase hex digits. -/
def isHexDigitCh (c : Char) : Bool :=
  (('0' ≤ c) && (c ≤ '9')) || (('a' ≤ c) && (c ≤ 'f'))

/-- String matches `^#[0-9a-f]{6}$`. -/
def isHexColor (s : String) : Bool :=
  match s.toList with
  | '#' :: rest => (rest.length == 6) && rest.all isHexDigitCh
  | _ => false

/-- Modelled from the spec: the base-selection rule as claim C6 reads it,
"cycling through the extracted set by index modulo its length" — the base of
the j-th synthesized color is `extracted[len(palette) % len(extracted)]`.
This is NOT what bearViz.py line 39 does (which indexes
`extracted_hex[len % len] = extracted_hex[0]`); it exists only to compare the
claimed behavior with the code's. -/
def synthLoopRotating (off : Nat → Nat) (required : Nat) (extracted : List String) :
    Nat → Nat → List String → Option (List String)
  | 0, _, hex => if hex.length < required then none else some hex
  | fuel + 1, t, hex =>
    if hex.length < required then
      match pyMod hex.length extracted.length with
      | none => none
      | some i =>
        match extracted.get? i with
        | none => none
        | some base =>
          synthLoopRotating off required extracted fuel (t + 3)
            (hex ++ [synthColor base (off t) (off (t + 1)) (off (t + 2))])
    else some hex

/-- Modelled from the spec: `extract_colors` with the rotating base selection
claimed by C6, for comparison with the code's `extract_colors`. -/
def extract_colors_rotating (off : Nat → Nat) (extracted_colors : List (Nat × Nat × Nat))
    (required_colors : Nat) : Option (List String) :=
  let extracted_hex := hexOf extracted_colors
  match synthLoopRotating off required_colors extracted_hex required_colors 0 extracted_hex with
  | none => none
  | some hex => some (hex.take required_colors)

/-! ### Helper lemmas about hex formatting and parsing -/

theorem hexDigits_small (fuel n : Nat) (hf : 0 < fuel) (h : n < 16) :
    hexDigits fuel n = [digitChar16 n] := by
  cases fuel with
  | zero => omega
  | succ f => simp [hexDigits, h]

theorem hexDigits_byte (fuel n : Nat) (hf : 2 ≤ fuel) (h16 : 16 ≤ n) (h : n < 256) :
    hexDigits fuel n = [digitChar16 (n / 16), digitChar16 (n % 16)] := by
  cases fuel with
  | zero => omega
  | succ f =>
    have hnlt : ¬ n < 16 := by omega
    rw [hexDigits, if_neg hnlt, hexDigits_small f (n / 16) (by omega) (by omega)]
    rfl

theorem hex2_small (n : Nat) (h : n < 16) : hex2 n = ['0', digitChar16 n] := by
  unfold hex2
  rw [hexDigits_small (n + 1) n (by omega) h]
  simp

theorem hex2_byte (n : Nat) (h16 : 16 ≤ n) (h : n < 256) :
    hex2 n = [digitChar16 (n / 16), digitChar16 (n % 16)] := by
  unfold hex2
  rw [hexDigits_byte (n + 1) n (by omega) h16 h]
  simp

theorem hex2_length (n : Nat) (h : n < 256) : (hex2 n).length = 2 := by
  by_cases h16 : n < 16
  · rw [hex2_small n h16]; rfl
  · rw [hex2_byte n (by omega) h]; rfl

theorem hexDigitVal_digitChar16 : ∀ n, n < 16 → hexDigitVal (digitChar16 n) = n := by
  decide

theorem isHexDigitCh_digitChar16 : ∀ n, n < 16 → isHexDigitCh (digitChar16 n) = true := by
  decide

theorem parseHex_hex2 (n : Nat) (h : n < 256) : parseHex (hex2 n) = n := by
  by_cases h16 : n < 16
  · rw [hex2_small n h16]
    simp [parseHex, hexDigitVal_digitChar16 n h16]
    decide
  · rw [hex2_byte n (by omega) h]
    simp [parseHex, hexDigitVal_digitChar16 (n / 16) (by omega),
      hexDigitVal_digitChar16 (n % 16) (by omega)]
    omega

theorem hex2_all_hex (n : Nat) (h : n < 256) : (hex2 n).all isHexDigitCh = true := by
  by_cases h16 : n < 16
  · rw [hex2_small n h16]
    simp [isHexDigitCh_digitChar16 n h16]
    decide
  · rw [hex2_byte n (by omega) h]
    simp [isHexDigitCh_digitChar16 (n / 16) (by omega),
      isHexDigitCh_digitChar16 (n % 16) (by omega)]

theorem rgbToHex_toList (r g b : Nat) :
    (rgbToHex r g b).toList = '#' :: (hex2 r ++ hex2 g ++ hex2 b) := rfl

theorem isHexColor_rgbToHex (r g b : Nat) (hr : r < 256) (hg : g < 256) (hb : b < 256) :
    isHexColor (rgbToHex r g b) = true := by
  unfold isHexColor
  rw [rgbToHex_toList]
  simp [List.all_append, hex2_all_hex r hr, hex2_all_hex g hg, hex2_all_hex b hb,
    hex2_length r hr, hex2_length g hg, hex2_length b hb]

theorem strSlice_rgbToHex_r (r g b : Nat) (hr : r < 256) :
    strSlice (rgbToHex r g b) 1 3 = hex2 r := by
  unfold strSlice
  rw [rgbToHex_toList]
  show ((hex2 r ++ hex2 g ++ hex2 b).take 2) = hex2 r
  rw [List.append_assoc, show (2 : Nat) = (hex2 r).length from (hex2_length r hr).symm,
    List.take_left]

theorem strSlice_rgbToHex_g (r g b : Nat) (hr : r < 256) (hg : g < 256) :
    strSlice (rgbToHex r g b) 3 5 = hex2 g := by
  unfold strSlice
  rw [rgbToHex_toList]
  show ((hex2 r ++ hex2 g ++ hex2 b).drop 2).take 2 = hex2 g
  rw [List.append_assoc, show (2 : Nat) = (hex2 r).length from (hex2_length r hr).symm,
    List.drop_left, show (hex2 r).length = (hex2 g).length from by
      rw [hex2_length r hr, hex2_length g hg],
    List.take_left]

theorem strSlice_rgbToHex_b (r g b : Nat) (hr : r < 256) (hg : g < 256) (hb : b < 256) :
    strSlice (rgbToHex r g b) 5 7 = hex2 b := by
  unfold strSlice
  rw [rgbToHex_toList]
  show ((hex2 r ++ hex2 g ++ hex2 b).drop 4).take 2 = hex2 b
  rw [show (4 : Nat) = (hex2 r ++ hex2 g).length from by
      simp [hex2_length r hr, hex2_length g hg],
    List.drop_left, show (2 : Nat) = (hex2 b).length from (hex2_length b hb).symm,
    List.take_length]

theorem synthColor_rgbToHex (r g b d1 d2 d3 : Nat) (hr : r < 256) (hg : g < 256)
    (hb : b < 256) :
    synthColor (rgbToHex r g b) d1 d2 d3 =
      rgbToHex ((r + d1) % 256) ((g + d2) % 256) ((b + d3) % 256) := by
  unfold synthColor
  rw [strSlice_rgbToHex_r r g b hr, strSlice_rgbToHex_g r g b hr hg,
    strSlice_rgbToHex_b r g b hr hg hb,
    parseHex_hex2 r hr, parseHex_hex2 g hg, parseHex_hex2 b hb]

theorem rgbToHex_r_inj (r g b r' g' b' : Nat) (hr : r < 256) (hr' : r' < 256)
    (h : rgbToHex r g b = rgbToHex r' g' b') : r = r' := by
  have h2 := congrArg (fun s => parseHex (strSlice s 1 3)) h
  simp only [strSlice_rgbToHex_r r g b hr, strSlice_rgbToHex_r r' g' b' hr'] at h2
  rwa [parseHex_hex2 r hr, parseHex_hex2 r' hr'] at h2

/-! ### Closed form of the synthesis loop

On a non-empty list the base index `len % len` is always `0`, so every
synthesized color perturbs the FIRST extracted color; the loop appends
exactly `required - len` colors. -/

theorem synthLoop_closed (off : Nat → Nat) (required : Nat) :
    ∀ fuel t x rest, required - (x :: rest).length ≤ fuel →
      synthLoop off required fuel t (x :: rest) =
        some ((x :: rest) ++ (List.range (required - (x :: rest).length)).map
          (fun j => synthColor x (off (t + 3 * j)) (off (t + 3 * j + 1))
            (off (t + 3 * j + 2)))) := by
  intro fuel
  induction fuel with
  | zero =>
    intro t x rest hle
    simp only [List.length_cons] at hle
    have h : ¬ rest.length + 1 < required := by omega
    have h0 : required - (rest.length + 1) = 0 := by omega
    simp [synthLoop, h, h0]
  | succ f ih =>
    intro t x rest hle
    by_cases hlt : (x :: rest).length < required
    · have hmod : pyMod (x :: rest).length (x :: rest).length = some 0 := by
        simp [pyMod, Nat.mod_self]
      rw [synthLoop, if_pos hlt, hmod]
      show synthLoop off required f (t + 3)
          ((x :: rest) ++ [synthColor x (off t) (off (t + 1)) (off (t + 2))]) = _
      rw [List.cons_append]
      rw [ih (t + 3) x (rest ++ [synthColor x (off t) (off (t + 1)) (off (t + 2))])
        (by simp at hle hlt ⊢; omega)]
      have hlen : required - (x :: (rest ++ [synthColor x (off t) (off (t + 1)) (off (t + 2))])).length
          = required - (x :: rest).length - 1 := by simp; omega
      have hsplit : required - (x :: rest).length
          = (required - (x :: rest).length - 1) + 1 := by
        simp at hlt ⊢; omega
      rw [hlen, hsplit, List.range_succ_eq_map, List.map_cons, List.map_map]
      have hmap : (List.range (required - (x :: rest).length - 1)).map
            ((fun j => synthColor x (off (t + 3 * j)) (off (t + 3 * j + 1))
              (off (t + 3 * j + 2))) ∘ Nat.succ)
          = (List.range (required - (x :: rest).length - 1)).map
            (fun j => synthColor x (off (t + 3 + 3 * j)) (off (t + 3 + 3 * j + 1))
              (off (t + 3 + 3 * j + 2))) := by
        apply List.map_congr_left
        intro j _
        have harg : t + 3 * (j + 1) = t + 3 + 3 * j := by ring
        simp only [Function.comp, Nat.succ_eq_add_one, harg]
      rw [hmap]
      simp [List.append_assoc]
    · have h0 : required - (rest.length + 1) = 0 := by
        simp only [List.length_cons] at hlt
        omega
      rw [synthLoop, if_neg hlt]
      simp [h0]

/-- Closed form of `extract_colors` on a non-empty quantizer output: the
extracted hex strings, padded by perturbations of the first one, truncated
to `required_colors`. -/
theorem extract_colors_closed (off : Nat → Nat) (c : Nat × Nat × Nat)
    (cs : List (Nat × Nat × Nat)) (k : Nat) :
    extract_colors off (c :: cs) k =
      some ((hexOf (c :: cs) ++ (List.range (k - (c :: cs).length)).map
        (fun j => synthColor (rgbToHex c.1 c.2.1 c.2.2) (off (3 * j)) (off (3 * j + 1))
          (off (3 * j + 2)))).take k) := by
  unfold extract_colors
  have hx : hexOf (c :: cs) = rgbToHex c.1 c.2.1 c.2.2 :: hexOf cs := rfl
  rw [hx]
  show (match synthLoop off k k 0 (rgbToHex c.1 c.2.1 c.2.2 :: hexOf cs) with
    | none => none
    | some hex => some (hex.take k)) = _
  rw [synthLoop_closed off k k 0 (rgbToHex c.1 c.2.1 c.2.2) (hexOf cs) (by omega)]
  simp [hexOf]

/-- Auxiliary: entry `len + j` of the returned palette (a synthesized one)
is a perturbation of the FIRST extracted color, consuming offsets
`off (3j), off (3j+1), off (3j+2)`. -/
theorem extract_colors_get_pad (off : Nat → Nat) (c : Nat × Nat × Nat)
    (cs : List (Nat × Nat × Nat)) (k : Nat) (l : List String) (j : Nat)
    (h : extract_colors off (c :: cs) k = some l)
    (hj : (c :: cs).length + j < k) :
    l[(c :: cs).length + j]? =
      some (synthColor (rgbToHex c.1 c.2.1 c.2.2) (off (3 * j)) (off (3 * j + 1))
        (off (3 * j + 2))) := by
  rw [extract_colors_closed off c cs k] at h
  injection h with h
  subst h
  have hlen : (hexOf (c :: cs)).length = (c :: cs).length := by simp [hexOf]
  rw [List.getElem?_take_of_lt hj, List.getElem?_append_right (by omega),
    List.getElem?_map, hlen]
  have hj2 : (c :: cs).length + j - (c :: cs).length = j := by omega
  rw [hj2, List.getElem?_range (by omega)]
  rfl

/-! ### The claims -/

/-- C1: for every quantizer output with at least one color and every
`required_colors = k ≥ 1`, `extract_colors` returns normally and the palette
has length exactly `k`, never fewer and never more. -/
theorem extract_colors_length_eq (off : Nat → Nat) (qout : List (Nat × Nat × Nat))
    (k : Nat) (hq : qout ≠ []) (_hk : 1 ≤ k) :
    ∃ l, extract_colors off qout k = some l ∧ l.length = k := by
  obtain ⟨c, cs, rfl⟩ : ∃ c cs, qout = c :: cs := by
    cases qout with
    | nil => exact absurd rfl hq
    | cons c cs => exact ⟨c, cs, rfl⟩
  refine ⟨_, extract_colors_closed off c cs k, ?_⟩
  simp [hexOf]
  omega

/-- Witness for C1 at a concrete input. -/
theorem extract_colors_length_eq_witness :
    ∃ l, extract_colors (fun _ => 20) [(17, 34, 51)] 3 = some l ∧ l.length = 3 :=
  extract_colors_length_eq (fun _ => 20) [(17, 34, 51)] 3 (by decide) (by decide)

/-- C2: every entry of the returned palette (extracted or synthesized)
matches `^#[0-9a-f]{6}$`, provided the quantizer's channels are bytes. -/
theorem extract_colors_all_hex (off : Nat → Nat) (qout : List (Nat × Nat × Nat))
    (k : Nat) (l : List String) (hq : qout ≠ []) (_hk : 1 ≤ k)
    (hrgb : ∀ c ∈ qout, c.1 < 256 ∧ c.2.1 < 256 ∧ c.2.2 < 256)
    (h : extract_colors off qout k = some l) :
    ∀ s ∈ l, isHexColor s = true := by
  obtain ⟨c, cs, rfl⟩ : ∃ c cs, qout = c :: cs := by
    cases qout with
    | nil => exact absurd rfl hq
    | cons c cs => exact ⟨c, cs, rfl⟩
  rw [extract_colors_closed off c cs k] at h
  injection h with h
  subst h
  intro s hs
  have hs2 := List.take_subset _ _ hs
  rcases List.mem_append.mp hs2 with hmem | hmem
  · simp only [hexOf, List.mem_map] at hmem
    obtain ⟨a, ha, rfl⟩ := hmem
    have hac := hrgb a ha
    exact isHexColor_rgbToHex _ _ _ hac.1 hac.2.1 hac.2.2
  · simp only [List.mem_map, List.mem_range] at hmem
    obtain ⟨j, hj, rfl⟩ := hmem
    have hc := hrgb c (List.mem_cons_self c cs)
    rw [synthColor_rgbToHex _ _ _ _ _ _ hc.1 hc.2.1 hc.2.2]
    exact isHexColor_rgbToHex _ _ _ (Nat.mod_lt _ (by omega)) (Nat.mod_lt _ (by omega))
      (Nat.mod_lt _ (by omega))

/-- Witness for C2 at a concrete input and a concrete palette entry. -/
theorem extract_colors_all_hex_witness :
    isHexColor "#253647" = true :=
  extract_colors_all_hex (fun _ => 20) [(17, 34, 51)] 3
    ["#112233", "#253647", "#253647"] (by decide) (by decide) (by decide) (by decide)
    "#253647" (by decide)

/-- C3: if the quantizer returns `m ≥ k` colors, the palette is exactly the
hex encodings of the first `k`, in the quantizer's order, nothing
synthesized. -/
theorem extract_colors_no_synth (off : Nat → Nat) (qout : List (Nat × Nat × Nat))
    (k : Nat) (hk : k ≤ qout.length) :
    extract_colors off qout k = some ((hexOf qout).take k) := by
  cases qout with
  | nil =>
    simp only [List.length_nil, Nat.le_zero] at hk
    subst hk
    rfl
  | cons c cs =>
    rw [extract_colors_closed off c cs k]
    have h0 : k - (c :: cs).length = 0 := by
      simp only [List.length_cons] at hk ⊢
      omega
    rw [h0]
    simp

/-- Witness for C3 at a concrete input. -/
theorem extract_colors_no_synth_witness :
    extract_colors (fun _ => 20) [(17, 34, 51), (0, 0, 0), (255, 255, 255)] 2 =
      some ((hexOf [(17, 34, 51), (0, 0, 0), (255, 255, 255)]).take 2) :=
  extract_colors_no_synth (fun _ => 20) [(17, 34, 51), (0, 0, 0), (255, 255, 255)] 2
    (by decide)

/-- C4: if the quantizer returns `m < k` colors, the first `m` palette
entries are their hex encodings in order, and the remaining `k - m` entries
are appended after them, each synthesized by channel perturbation of an
existing entry. -/
theorem extract_colors_pads_after (off : Nat → Nat) (c : Nat × Nat × Nat)
    (cs : List (Nat × Nat × Nat)) (k : Nat) (hm : (c :: cs).length < k) :
    ∃ pad, extract_colors off (c :: cs) k = some (hexOf (c :: cs) ++ pad) ∧
      pad.length = k - (c :: cs).length ∧
      ∀ s ∈ pad, ∃ base ∈ hexOf (c :: cs), ∃ d1 d2 d3, s = synthColor base d1 d2 d3 := by
  refine ⟨(List.range (k - (c :: cs).length)).map
    (fun j => synthColor (rgbToHex c.1 c.2.1 c.2.2) (off (3 * j)) (off (3 * j + 1))
      (off (3 * j + 2))), ?_, ?_, ?_⟩
  · rw [extract_colors_closed off c cs k]
    congr 1
    apply List.take_of_length_le
    simp only [List.length_append, List.length_map, List.length_range, hexOf,
      List.length_cons] at hm ⊢
    omega
  · simp
  · intro s hs
    simp only [List.mem_map, List.mem_range] at hs
    obtain ⟨j, hj, rfl⟩ := hs
    exact ⟨rgbToHex c.1 c.2.1 c.2.2, by simp [hexOf], _, _, _, rfl⟩

/-- Witness for C4 at a concrete input. -/
theorem extract_colors_pads_after_witness :
    ∃ pad, extract_colors (fun _ => 20) [(17, 34, 51)] 3 =
        some (hexOf [(17, 34, 51)] ++ pad) ∧
      pad.length = 3 - ([(17, 34, 51)] : List (Nat × Nat × Nat)).length ∧
      ∀ s ∈ pad, ∃ base ∈ hexOf [(17, 34, 51)], ∃ d1 d2 d3,
        s = synthColor base d1 d2 d3 :=
  extract_colors_pads_after (fun _ => 20) (17, 34, 51) [] 3 (by decide)

/-- C5, counterexample: with `required_colors = 0` the code raises nothing
(`none` would model an exception); it returns normally, with the empty
palette. -/
theorem extract_colors_zero_count_returns :
    extract_colors (fun _ => 20) [(17, 34, 51)] 0 = some [] := by decide

/-- C5, amended: `extract_colors` performs no validation of
`required_colors`; called with `required_colors = 0` it raises no error and
returns the empty palette (the extracted colors truncated to 0 entries). -/
theorem extract_colors_zero_count (off : Nat → Nat) (qout : List (Nat × Nat × Nat)) :
    extract_colors off qout 0 = some [] := by
  unfold extract_colors
  show (match synthLoop off 0 0 0 (hexOf qout) with
    | none => none
    | some hex => some (hex.take 0)) = some []
  rw [show synthLoop off 0 0 0 (hexOf qout) = some (hexOf qout) from by
    simp [synthLoop]]
  rfl

/-- C6, counterexample: the code's palette disagrees with the palette the
rotating base selection ("successive synthesized colors from successive
extracted entries") would produce.  On two extracted colors black and
`#646464` with all offsets 20, the code synthesizes `#141414` twice (both
perturbations of the FIRST color); rotation would synthesize `#787878`
(a perturbation of the second color) as the fourth entry. -/
theorem extract_colors_not_rotating :
    extract_colors (fun _ => 20) [(0, 0, 0), (100, 100, 100)] 4 =
      some ["#000000", "#646464", "#141414", "#141414"] ∧
    extract_colors_rotating (fun _ => 20) [(0, 0, 0), (100, 100, 100)] 4 =
      some ["#000000", "#646464", "#141414", "#787878"] ∧
    extract_colors (fun _ => 20) [(0, 0, 0), (100, 100, 100)] 4 ≠
      extract_colors_rotating (fun _ => 20) [(0, 0, 0), (100, 100, 100)] 4 := by
  decide

/-- C6, amended: the base index `len(extracted_hex) % len(extracted_hex)` is
always 0, so EVERY synthesized entry is derived from the first extracted
color, not from successive entries in rotation. -/
theorem extract_colors_base_always_first (off : Nat → Nat) (c : Nat × Nat × Nat)
    (cs : List (Nat × Nat × Nat)) (k : Nat) (l : List String) (j : Nat)
    (h : extract_colors off (c :: cs) k = some l)
    (hj : (c :: cs).length + j < k) :
    l[(c :: cs).length + j]? =
      some (synthColor (rgbToHex c.1 c.2.1 c.2.2) (off (3 * j)) (off (3 * j + 1))
        (off (3 * j + 2))) :=
  extract_colors_get_pad off c cs k l j h hj

/-- Witness for the amended C6 at a concrete input. -/
theorem extract_colors_base_always_first_witness :
    (["#112233", "#253647", "#253647"] :
        List String)[([((17 : Nat), (34 : Nat), (51 : Nat))] : List (Nat × Nat × Nat)).length + 1]? =
      some (synthColor (rgbToHex 17 34 51) 20 20 20) :=
  extract_colors_base_always_first (fun _ => 20) (17, 34, 51) [] 3
    ["#112233", "#253647", "#253647"] 1 (by decide) (by decide)

/-- C7: each channel of a synthesized palette entry is the corresponding
channel of its base entry plus an offset drawn from the random stream (in
`[20, 50]` by hypothesis on the stream), reduced modulo 256 — wrapping,
never clamping. -/
theorem extract_colors_pad_channel_offsets (off : Nat → Nat) (r g b : Nat)
    (cs : List (Nat × Nat × Nat)) (k : Nat) (l : List String) (i : Nat)
    (hr : r < 256) (hg : g < 256) (hb : b < 256)
    (hoff : ∀ n, 20 ≤ off n ∧ off n ≤ 50)
    (h : extract_colors off ((r, g, b) :: cs) k = some l)
    (hi : ((r, g, b) :: cs).length ≤ i) (hik : i < k) :
    ∃ d1 d2 d3, 20 ≤ d1 ∧ d1 ≤ 50 ∧ 20 ≤ d2 ∧ d2 ≤ 50 ∧ 20 ≤ d3 ∧ d3 ≤ 50 ∧
      l[i]? = some (rgbToHex ((r + d1) % 256) ((g + d2) % 256) ((b + d3) % 256)) := by
  obtain ⟨j, rfl⟩ : ∃ j, i = ((r, g, b) :: cs).length + j :=
    ⟨i - ((r, g, b) :: cs).length, by omega⟩
  refine ⟨off (3 * j), off (3 * j + 1), off (3 * j + 2),
    (hoff (3 * j)).1, (hoff (3 * j)).2, (hoff (3 * j + 1)).1, (hoff (3 * j + 1)).2,
    (hoff (3 * j + 2)).1, (hoff (3 * j + 2)).2, ?_⟩
  rw [extract_colors_get_pad off (r, g, b) cs k l j h (by omega)]
  rw [synthColor_rgbToHex r g b _ _ _ hr hg hb]

/-- Witness for C7 at a concrete input. -/
theorem extract_colors_pad_channel_offsets_witness :
    ∃ d1 d2 d3, 20 ≤ d1 ∧ d1 ≤ 50 ∧ 20 ≤ d2 ∧ d2 ≤ 50 ∧ 20 ≤ d3 ∧ d3 ≤ 50 ∧
      (["#112233", "#253647", "#253647"] : List String)[1]? =
        some (rgbToHex ((17 + d1) % 256) ((34 + d2) % 256) ((51 + d3) % 256)) :=
  extract_colors_pad_channel_offsets (fun _ => 20) 17 34 51 [] 3
    ["#112233", "#253647", "#253647"] 1 (by decide) (by decide) (by decide)
    (by intro n; simp) (by decide) (by decide) (by decide)

/-- C8: a synthesized palette entry always differs in value from the base
entry it was derived from, since every channel is shifted by a nonzero
amount `20..50` modulo 256. -/
theorem extract_colors_pad_differs_from_base (off : Nat → Nat) (r g b : Nat)
    (cs : List (Nat × Nat × Nat)) (k : Nat) (l : List String) (i : Nat)
    (hr : r < 256) (hg : g < 256) (hb : b < 256)
    (hoff : ∀ n, 20 ≤ off n ∧ off n ≤ 50)
    (h : extract_colors off ((r, g, b) :: cs) k = some l)
    (hi : ((r, g, b) :: cs).length ≤ i) (hik : i < k) :
    l[i]? ≠ some (rgbToHex r g b) := by
  obtain ⟨j, rfl⟩ : ∃ j, i = ((r, g, b) :: cs).length + j :=
    ⟨i - ((r, g, b) :: cs).length, by omega⟩
  rw [extract_colors_get_pad off (r, g, b) cs k l j h (by omega)]
  intro hcontra
  injection hcontra with hcontra
  rw [synthColor_rgbToHex r g b _ _ _ hr hg hb] at hcontra
  have heq := rgbToHex_r_inj _ _ _ _ _ _ (Nat.mod_lt _ (by omega)) hr hcontra
  have h1 := (hoff (3 * j)).1
  have h2 := (hoff (3 * j)).2
  omega

/-- Witness for C8 at a concrete input. -/
theorem extract_colors_pad_differs_from_base_witness :
    (["#112233", "#253647", "#253647"] : List String)[1]? ≠ some (rgbToHex 17 34 51) :=
  extract_colors_pad_differs_from_base (fun _ => 20) 17 34 51 [] 3
    ["#112233", "#253647", "#253647"] 1 (by decide) (by decide) (by decide)
    (by intro n; simp) (by decide) (by decide) (by decide)

/-- C9: when no image-derived palette is in the session, the application
falls back to exactly the hardcoded default 5-color palette, in that
order. -/
theorem color_palette_default_fallback :
    color_palette none = ["#3498db", "#e74c3c", "#2ecc71", "#f1c40f", "#9b59b6"] := rfl

/-- C10: the synthesis loop terminates whenever at least one color was
extracted: each iteration appends exactly one entry (so the length strictly
increases by one), and the loop returns a palette of length exactly `k` as
soon as the length reaches `k`. -/
theorem synthLoop_terminates (off : Nat → Nat) (k t fuel : Nat) (x : String)
    (rest : List String) (hfuel : k - (x :: rest).length ≤ fuel + 1)
    (hlt : (x :: rest).length < k) :
    synthLoop off k (fuel + 1) t (x :: rest) =
      synthLoop off k fuel (t + 3)
        ((x :: rest) ++ [synthColor x (off t) (off (t + 1)) (off (t + 2))]) ∧
    ((x :: rest) ++ [synthColor x (off t) (off (t + 1)) (off (t + 2))]).length
      = (x :: rest).length + 1 ∧
    ∃ l, synthLoop off k (fuel + 1) t (x :: rest) = some l ∧ l.length = k := by
  have hmod : pyMod (x :: rest).length (x :: rest).length = some 0 := by
    simp [pyMod, Nat.mod_self]
  refine ⟨?_, by simp, ?_⟩
  · rw [synthLoop, if_pos hlt, hmod]
    rfl
  · refine ⟨_, synthLoop_closed off k (fuel + 1) t x rest hfuel, ?_⟩
    simp only [List.length_append, List.length_map, List.length_range, List.length_cons]
    simp only [List.length_cons] at hlt
    omega

/-- Witness for C10 at a concrete input. -/
theorem synthLoop_terminates_witness :
    synthLoop (fun _ => 20) 3 (1 + 1) 0 ["#112233"] =
      synthLoop (fun _ => 20) 3 1 (0 + 3)
        (["#112233"] ++ [synthColor "#112233" 20 20 20]) ∧
    (["#112233"] ++ [synthColor "#112233" 20 20 20]).length
      = (["#112233"] : List String).length + 1 ∧
    ∃ l, synthLoop (fun _ => 20) 3 (1 + 1) 0 ["#112233"] = some l ∧ l.length = 3 :=
  synthLoop_terminates (fun _ => 20) 3 0 1 "#112233" [] (by decide) (by decide)

end BearViz
